import Mathlib

/-!
Verification of the JWK key-model validator and material resolver
(`jwcrypto/jwk.py`) against its natural-language specification.

The Python module is shallowly embedded below: the registries become
list constants, a JWK object becomes a structure of three association
lists (`params`, `key`, `unknown`, mirroring `self._params`,
`self._key`, `self._unknown`), exceptions become an `Err` inductive and
fallible code returns `Except Err _`.  Machine-level collaborators that
the source delegates to (the `cryptography` provider, the base64url and
JSON codecs from `jwcrypto.common`) are modelled at their interfaces as
the spec directs.
-/

/-- A JSON field value as the module manipulates it: a string, or a
sequence of strings (the multi-valued fields such as `key_ops`). -/
inductive Value where
  | str : String → Value
  | list : List String → Value
deriving DecidableEq

/-- Error kinds raised by the module.  `invalidJWKType`,
`invalidJWKUsage`, `invalidJWKOperation` and `invalidJWKValue` are the
exception classes defined in `jwk.py` (`invalidJWKValue` keeps the fixed
part of its message).  `keyError` is the Python `KeyError` from a direct
`d[name]` access on a missing key, `valueError` is `ValueError` from
`int(empty, 16)`, `typeError` is `TypeError` (unhashable dict probe), and
`notImplementedError` is `NotImplementedError`. -/
inductive Err where
  | invalidJWKType
  | invalidJWKUsage
  | invalidJWKOperation
  | invalidJWKValue (msg : String)
  | keyError (name : String)
  | valueError
  | typeError
  | notImplementedError
deriving DecidableEq

instance {ε α : Type} [DecidableEq ε] [DecidableEq α] : DecidableEq (Except ε α) := fun a b =>
  match a, b with
  | .ok x, .ok y => if h : x = y then .isTrue (by rw [h]) else .isFalse (by simp [h])
  | .error x, .error y => if h : x = y then .isTrue (by rw [h]) else .isFalse (by simp [h])
  | .ok _, .error _ => .isFalse (by simp)
  | .error _, .ok _ => .isFalse (by simp)

/-- The curve selectors of the external provider (`ec.SECP256R1()` etc.). -/
inductive Curve where
  | secp256r1
  | secp384r1
  | secp521r1
deriving DecidableEq

/-- `rsa.RSAPublicNumbers(e, n)`. -/
structure RSAPublicNumbers where
  e : Nat
  n : Nat
deriving DecidableEq

/-- `rsa.RSAPrivateNumbers(p, q, d, dp, dq, qi, pub)`. -/
structure RSAPrivateNumbers where
  p : Nat
  q : Nat
  d : Nat
  dp : Nat
  dq : Nat
  qi : Nat
  pub : RSAPublicNumbers
deriving DecidableEq

/-- `ec.EllipticCurvePublicNumbers(x, y, curve)`. -/
structure ECPublicNumbers where
  x : Nat
  y : Nat
  curve : Curve
deriving DecidableEq

/-- `ec.EllipticCurvePrivateNumbers(d, pub)`. -/
structure ECPrivateNumbers where
  d : Nat
  pub : ECPublicNumbers
deriving DecidableEq

/-- The opaque key handle returned by the external cryptographic
primitive provider (`.public_key(default_backend())`,
`.private_key(default_backend())`), or the raw `k` value for `oct`
keys.  The provider is external to the module, so the handle is
modelled as a tag on the assembled numbers. -/
inductive KeyHandle where
  | octKey (v : Value)
  | rsaPubKey (nums : RSAPublicNumbers)
  | rsaPriKey (nums : RSAPrivateNumbers)
  | ecPubKey (nums : ECPublicNumbers)
  | ecPriKey (nums : ECPrivateNumbers)
deriving DecidableEq

/-- Keys of `JWKTypesRegistry`. -/
def jwkTypes : List String := ["EC", "RSA", "oct"]

/-- Keys of `JWKParamsRegistry`, in registry (iteration) order. -/
def jwkParamNames : List String :=
  ["kty", "use", "key_ops", "alg", "kid", "x5u", "x5c", "x5t", "x5t#S256"]

/-- Keys of `JWKValuesRegistry[kty]`, in registry (iteration) order. -/
def jwkValueNames (kty : String) : List String :=
  if kty = "EC" then ["crv", "x", "y", "d"]
  else if kty = "RSA" then ["n", "e", "d", "p", "q", "dp", "dq", "qi"]
  else if kty = "oct" then ["k"]
  else []

/-- Python dict access `d[name]`: the value, or `KeyError` when absent. -/
def dictGet (d : List (String × Value)) (name : String) : Except Err Value :=
  match List.lookup name d with
  | some v => Except.ok v
  | none => Except.error (Err.keyError name)

/-- Python truthiness of a field value (`if use`, `if ops`, `if arg`):
an empty string or empty list is falsy. -/
def pyTruthy : Value → Bool
  | .str s => !s.isEmpty
  | .list l => !l.isEmpty

/-- Python iteration over a field value (`for ko in v`): the elements of
a list, or the characters of a string (each a one-character string). -/
def pyElems : Value → List String
  | .str s => s.data.map (fun c => String.singleton c)
  | .list l => l

/-- `List.isPrefixOf` on characters, then tested at every suffix:
the Python substring containment `x in s` for strings. -/
def substrAt (p : List Char) (t : List Char) : Bool :=
  match t with
  | [] => p.isEmpty
  | _ :: ts => List.isPrefixOf p t || substrAt p ts

/-- Python containment `x in v` on a field value: list membership, or
substring containment when the value is a string. -/
def pyContains (v : Value) (x : String) : Bool :=
  match v with
  | .list l => l.contains x
  | .str s => substrAt x.data s.data

/-- The sub-dict built by iterating over registry `names` and copying
the fields present in `kwargs` (the `for name in <registry>: if name in
kwargs: d[name] = kwargs[name]` loops of `__init__`). -/
def mkSub : List String → List (String × Value) → List (String × Value)
  | [], _ => []
  | n :: ns, kwargs =>
    match List.lookup n kwargs with
    | some v => (n, v) :: mkSub ns kwargs
    | none => mkSub ns kwargs

/-- The `for name in names: self._unknown[name] = ...; names.remove(name)`
loop of `__init__`.  the Python `for` loop iterates by index over a list that
the body shrinks, so every element after a removed one is skipped.
`fuel` bounds the number of iterations; the caller passes the initial
length, which the index-guarded loop can never exceed.  Returns the
names stored into `_unknown` and the names still left in `names` when
the loop ends. -/
def unknownPass : Nat → Nat → List String → List String × List String
  | 0, _, names => ([], names)
  | fuel + 1, i, names =>
    if h : i < names.length then
      (names.get ⟨i, h⟩ ::
        (unknownPass fuel (i + 1)
          (names.filter (fun n => n != names.get ⟨i, h⟩))).1,
       (unknownPass fuel (i + 1)
          (names.filter (fun n => n != names.get ⟨i, h⟩))).2)
    else ([], names)

/-- The Key Entity: the three mappings `self._params`, `self._key`,
`self._unknown` of a constructed `JWK` object. -/
structure JWK where
  params : List (String × Value)
  key : List (String × Value)
  unknown : List (String × Value)
deriving DecidableEq

/-- The `kty` extraction and check of `__init__`:
`kty = self._params.get(kty, None); if kty not in JWKTypesRegistry:
raise InvalidJWKType(kty)`.  Probing a dict with an unhashable value
(a list) is a `TypeError` in Python. -/
def readKty (params : List (String × Value)) : Except Err String :=
  match List.lookup "kty" params with
  | none => Except.error Err.invalidJWKType
  | some (.list _) => Except.error Err.typeError
  | some (.str s) =>
    if s ∈ jwkTypes then Except.ok s else Except.error Err.invalidJWKType

/-- The `key_ops` duplicate check of `__init__`: for each element of the
`key_ops` value, count its occurrences and fail when some count is not 1. -/
def checkKeyOpsDup (params : List (String × Value)) : Except Err Unit :=
  match List.lookup "key_ops" params with
  | none => Except.ok ()
  | some v =>
    if (pyElems v).any (fun ko => (pyElems v).count ko != 1) then
      Except.error (Err.invalidJWKValue "Duplicate values in key_ops")
    else Except.ok ()

/-- Operations incompatible with a `sig` use (`encl` in `__init__`). -/
def enclOps : List String :=
  ["encrypt", "decrypt", "wrapKey", "unwrapKey", "deriveKey", "deriveBits"]

/-- Operations incompatible with an `enc` use (`sigl` in `__init__`). -/
def siglOps : List String := ["sign", "verify"]

/-- The `use`/`key_ops` consistency check of `__init__`: when both are
present, a `sig` use forbids any `encl` operation in `key_ops` and
an `enc` use forbids any `sigl` operation (`op in key_ops` is Python
containment, a substring test when the value is a string). -/
def checkUseOpsCompat (params : List (String × Value)) : Except Err Unit :=
  match List.lookup "use" params, List.lookup "key_ops" params with
  | some u, some ops =>
    if u = Value.str "sig" then
      if enclOps.any (fun op => pyContains ops op) then
        Except.error (Err.invalidJWKValue "Incompatible use and key_ops")
      else Except.ok ()
    else if u = Value.str "enc" then
      if siglOps.any (fun op => pyContains ops op) then
        Except.error (Err.invalidJWKValue "Incompatible use and key_ops")
      else Except.ok ()
    else Except.ok ()
  | _, _ => Except.ok ()

/-- The `names` list of `__init__` as it stands when the unknown-field
loop starts: the supplied names with those claimed by the metadata
registry and by the value registry of the declared type removed. -/
def leftoverNames (kwargs : List (String × Value)) (kty : String) : List String :=
  (kwargs.map Prod.fst).filter
    (fun n => !(jwkParamNames.contains n) && !((jwkValueNames kty).contains n))

/-- `JWK.__init__(**kwargs)`: classify every supplied field into
`params` (names of the metadata registry), `key` (names of the value
registry for the declared `kty`) or `unknown` (the rest, via the
index-skipping loop `unknownPass`); then validate.  The checks run in
source order: `kty` registered, no name left in `names` after the
unknown loop, `key` non-empty, no duplicate in `key_ops`, `use` and
`key_ops` compatible. -/
def JWK.construct (kwargs : List (String × Value)) : Except Err JWK := do
  let params := mkSub jwkParamNames kwargs
  let kty ← readKty params
  let key := mkSub (jwkValueNames kty) kwargs
  let names2 := leftoverNames kwargs kty
  let pass := unknownPass names2.length 0 names2
  let unknown := mkSub pass.1 kwargs
  if pass.2.length ≠ 0 then
    Except.error (Err.invalidJWKValue "Unknown key parameters")
  else if key.length = 0 then
    Except.error (Err.invalidJWKValue "No Key Values found")
  else do
    checkKeyOpsDup params
    checkUseOpsCompat params
    Except.ok ⟨params, key, unknown⟩

/-- Python `dict.update(u)` on an association list: entries of `d` whose
key also occurs in `u` are overwritten in place, entries of `u` with a
fresh key are appended in order. -/
def updatePy (d u : List (String × Value)) : List (String × Value) :=
  d.map (fun p => match List.lookup p.1 u with
    | some v => (p.1, v)
    | none => p)
  ++ u.filter (fun p => (List.lookup p.1 d).isNone)

/-- `JWK.export()` up to the external JSON codec: the dict built by
`d.update(self._params); d.update(self._key); d.update(self._unknown)`.
The source then returns `json_encode(d)`; the codec is the external
collaborator with `json_decode(json_encode(d)) = d`, so the decoded
export is exactly this mapping. -/
def JWK.exportObj (j : JWK) : List (String × Value) :=
  updatePy (updatePy j.params j.key) j.unknown

/-- The six characters of the base64url alphabet positions of a
character, per RFC 4648 section 5 (`A`-`Z`, `a`-`z`, `0`-`9`, `-`, `_`).
Modelled from the spec: `base64url_decode` lives in `jwcrypto.common`,
outside the given source; the spec defines it as URL-safe base64
without padding per RFC 4648 section 5. -/
def b64CharVal (c : Char) : Option Nat :=
  if 65 ≤ c.toNat ∧ c.toNat ≤ 90 then some (c.toNat - 65)
  else if 97 ≤ c.toNat ∧ c.toNat ≤ 122 then some (c.toNat - 71)
  else if 48 ≤ c.toNat ∧ c.toNat ≤ 57 then some (c.toNat + 4)
  else if c = '-' then some 62
  else if c = '_' then some 63
  else none

/-- Modelled from the spec: base64url decoding without padding (RFC
4648 section 5) of a character list into octets; `none` on a malformed
encoding (Python raises `binascii.Error`, folded into `valueError`
here, a distinction none of the claims reach). -/
def b64urlDecodeL : List Char → Option (List Nat)
  | [] => some []
  | [_] => none
  | [c1, c2] =>
    match b64CharVal c1, b64CharVal c2 with
    | some v1, some v2 => some [v1 * 4 + v2 / 16]
    | _, _ => none
  | [c1, c2, c3] =>
    match b64CharVal c1, b64CharVal c2, b64CharVal c3 with
    | some v1, some v2, some v3 =>
      some [v1 * 4 + v2 / 16, v2 % 16 * 16 + v3 / 4]
    | _, _, _ => none
  | c1 :: c2 :: c3 :: c4 :: rest =>
    match b64CharVal c1, b64CharVal c2, b64CharVal c3, b64CharVal c4,
        b64urlDecodeL rest with
    | some v1, some v2, some v3, some v4, some bs =>
      some ((v1 * 4 + v2 / 16) :: (v2 % 16 * 16 + v3 / 4) :: (v3 % 4 * 64 + v4) :: bs)
    | _, _, _, _, _ => none

/-- Modelled from the spec: `base64url_decode` on a string. -/
def b64urlDecode (s : String) : Option (List Nat) :=
  b64urlDecodeL s.data

/-- The lower-case hex digit for a nibble, as `binascii.hexlify` emits it. -/
def hexDigitChar (n : Nat) : Char :=
  if n < 10 then Char.ofNat (48 + n) else Char.ofNat (87 + n)

/-- `binascii.hexlify`: each octet becomes two lower-case hex digits. -/
def hexlify (bs : List Nat) : List Char :=
  bs.flatMap (fun b => [hexDigitChar (b / 16), hexDigitChar (b % 16)])

/-- The value of one hex digit as `int(_, 16)` reads it. -/
def hexVal (c : Char) : Option Nat :=
  if 48 ≤ c.toNat ∧ c.toNat ≤ 57 then some (c.toNat - 48)
  else if 97 ≤ c.toNat ∧ c.toNat ≤ 102 then some (c.toNat - 87)
  else if 65 ≤ c.toNat ∧ c.toNat ≤ 70 then some (c.toNat - 55)
  else none

/-- Python `int(s, 16)` on the digit strings `hexlify` produces: `none`
(a `ValueError`) on the empty string or on a non-digit, otherwise the
base-16 value. -/
def parseHexNat (cs : List Char) : Option Nat :=
  if cs.isEmpty then none
  else cs.foldl (fun acc c =>
    match acc, hexVal c with
    | some a, some d => some (a * 16 + d)
    | _, _ => none) (some 0)

/-- The big-endian base-256 value of an octet string. -/
def beVal (bs : List Nat) : Nat :=
  bs.foldl (fun a b => a * 256 + b) 0

/-- `JWK._decode_int(n)`: `int(hexlify(base64url_decode(n)), 16)`.  The
argument is the raw field value; decoding a list value is a `TypeError`
in Python. -/
def JWK.decode_int (v : Value) : Except Err Nat :=
  match v with
  | .list _ => Except.error Err.typeError
  | .str s =>
    match b64urlDecode s with
    | none => Except.error Err.valueError
    | some bs =>
      match parseHexNat (hexlify bs) with
      | none => Except.error Err.valueError
      | some n => Except.ok n

/-- `JWK.get_curve(arg)`: reject non-EC keys with `InvalidJWKType`,
reject a truthy hint that differs from the `crv` field with
`InvalidJWKValue`, then map the registered curve names onto the
curve selectors of the provider, anything else being `InvalidJWKValue`
(the unknown-curve message). -/
def JWK.get_curve (j : JWK) (arg : Option String) : Except Err Curve := do
  let kty ← dictGet j.params "kty"
  if kty ≠ Value.str "EC" then Except.error Err.invalidJWKType
  else do
    (match arg with
     | some a =>
       if a.isEmpty then Except.ok () else do
         let crv ← dictGet j.key "crv"
         if crv ≠ Value.str a then
           Except.error (Err.invalidJWKValue "Curve requested mismatch")
         else Except.ok ()
     | none => Except.ok ())
    let crv ← dictGet j.key "crv"
    if crv = Value.str "P-256" then Except.ok Curve.secp256r1
    else if crv = Value.str "P-384" then Except.ok Curve.secp384r1
    else if crv = Value.str "P-521" then Except.ok Curve.secp521r1
    else Except.error (Err.invalidJWKValue "Unknown Elliptic Curve Type")

/-- The lone-value normalization of `_check_constraints`:
`if not isinstance(ops, list): ops = [ops]`. -/
def normOps : Value → List String
  | .list l => l
  | .str s => [s]

/-- `JWK._check_constraints(usage, operation)`: a truthy declared `use`
differing from the requested usage is `InvalidJWKUsage`; then a truthy
declared `key_ops` (a lone value wrapped into a one-element list) not
containing the requested operation is `InvalidJWKOperation`. -/
def JWK.check_constraints (params : List (String × Value)) (usage operation : String) :
    Except Err Unit := do
  (match List.lookup "use" params with
   | some u =>
     if pyTruthy u ∧ u ≠ Value.str usage then Except.error Err.invalidJWKUsage
     else Except.ok ()
   | none => Except.ok ())
  match List.lookup "key_ops" params with
  | some v =>
    if pyTruthy v then
      if operation ∈ normOps v then Except.ok ()
      else Except.error Err.invalidJWKOperation
    else Except.ok ()
  | none => Except.ok ()

/-- `JWK._rsa_pub(k)`: decode `e` then `n` (argument order of the
`RSAPublicNumbers(e, n)` call). -/
def JWK.rsa_pub (k : List (String × Value)) : Except Err RSAPublicNumbers := do
  let ev ← dictGet k "e"
  let e ← JWK.decode_int ev
  let nv ← dictGet k "n"
  let n ← JWK.decode_int nv
  Except.ok ⟨e, n⟩

/-- `JWK._rsa_pri(k)`: decode `p, q, d, dp, dq, qi` in order, then the
public pair. -/
def JWK.rsa_pri (k : List (String × Value)) : Except Err RSAPrivateNumbers := do
  let pv ← dictGet k "p"
  let p ← JWK.decode_int pv
  let qv ← dictGet k "q"
  let q ← JWK.decode_int qv
  let dv ← dictGet k "d"
  let d ← JWK.decode_int dv
  let dpv ← dictGet k "dp"
  let dp ← JWK.decode_int dpv
  let dqv ← dictGet k "dq"
  let dq ← JWK.decode_int dqv
  let qiv ← dictGet k "qi"
  let qi ← JWK.decode_int qiv
  let pub ← JWK.rsa_pub k
  Except.ok ⟨p, q, d, dp, dq, qi, pub⟩

/-- `JWK._ec_pub(k, curve)`: decode `x` then `y`, then resolve the
curve via `get_curve`. -/
def JWK.ec_pub (j : JWK) (arg : Option String) : Except Err ECPublicNumbers := do
  let xv ← dictGet j.key "x"
  let x ← JWK.decode_int xv
  let yv ← dictGet j.key "y"
  let y ← JWK.decode_int yv
  let c ← j.get_curve arg
  Except.ok ⟨x, y, c⟩

/-- `JWK._ec_pri(k, curve)`: decode `d`, then the public point. -/
def JWK.ec_pri (j : JWK) (arg : Option String) : Except Err ECPrivateNumbers := do
  let dv ← dictGet j.key "d"
  let d ← JWK.decode_int dv
  let pub ← j.ec_pub arg
  Except.ok ⟨d, pub⟩

/-- `JWK._get_public_key(arg)`: `oct` returns the raw `k` value, `RSA`
and `EC` assemble public numbers and hand them to the provider, any
other declared type is `NotImplementedError`. -/
def JWK.get_public_key (j : JWK) (arg : Option String) : Except Err KeyHandle := do
  let kty ← dictGet j.params "kty"
  if kty = Value.str "oct" then do
    let v ← dictGet j.key "k"
    Except.ok (KeyHandle.octKey v)
  else if kty = Value.str "RSA" then do
    let nums ← JWK.rsa_pub j.key
    Except.ok (KeyHandle.rsaPubKey nums)
  else if kty = Value.str "EC" then do
    let nums ← j.ec_pub arg
    Except.ok (KeyHandle.ecPubKey nums)
  else Except.error Err.notImplementedError

/-- `JWK._get_private_key(arg)`: as `get_public_key`, with the private
assemblies. -/
def JWK.get_private_key (j : JWK) (arg : Option String) : Except Err KeyHandle := do
  let kty ← dictGet j.params "kty"
  if kty = Value.str "oct" then do
    let v ← dictGet j.key "k"
    Except.ok (KeyHandle.octKey v)
  else if kty = Value.str "RSA" then do
    let nums ← JWK.rsa_pri j.key
    Except.ok (KeyHandle.rsaPriKey nums)
  else if kty = Value.str "EC" then do
    let nums ← j.ec_pri arg
    Except.ok (KeyHandle.ecPriKey nums)
  else Except.error Err.notImplementedError

/-- `JWK.get_op_key(operation, arg)`: with no operation, return the raw
secret of an `oct` key and `InvalidJWKOperation` for every other type
(the `validops` computed there feeds only the exception message);
otherwise dispatch on the operation: `sign` checks usage `sig` and
resolves private material, `verify` checks `sig` and resolves public,
`encrypt`/`wrapKey` check `enc` and resolve public,
`decrypt`/`unwrapKey` check `enc` and resolve private, anything else is
`NotImplementedError`. -/
def JWK.get_op_key (j : JWK) (operation : Option String) (arg : Option String) :
    Except Err KeyHandle :=
  match operation with
  | none => do
    let kty ← dictGet j.params "kty"
    if kty = Value.str "oct" then do
      let v ← dictGet j.key "k"
      Except.ok (KeyHandle.octKey v)
    else Except.error Err.invalidJWKOperation
  | some op =>
    if op = "sign" then do
      JWK.check_constraints j.params "sig" op
      j.get_private_key arg
    else if op = "verify" then do
      JWK.check_constraints j.params "sig" op
      j.get_public_key arg
    else if op = "encrypt" ∨ op = "wrapKey" then do
      JWK.check_constraints j.params "enc" op
      j.get_public_key arg
    else if op = "decrypt" ∨ op = "unwrapKey" then do
      JWK.check_constraints j.params "enc" op
      j.get_private_key arg
    else Except.error Err.notImplementedError

/-- The condition under which the declared `use` field blocks a
request: declared with a truthy (non-empty) value that differs from the
requested usage category. -/
def useBlocked (params : List (String × Value)) (usage : String) : Bool :=
  match List.lookup "use" params with
  | some u => pyTruthy u && decide (u ≠ Value.str usage)
  | none => false

/-- The condition under which the declared `key_ops` field blocks a
request: declared with a truthy (non-empty) value whose normalized
sequence does not contain the requested operation. -/
def opsBlocked (params : List (String × Value)) (operation : String) : Bool :=
  match List.lookup "key_ops" params with
  | some v => pyTruthy v && !(decide (operation ∈ normOps v))
  | none => false

/-- The usage category the `get_op_key` dispatch pairs with each
operation it implements. -/
def opUsage (op : String) : String :=
  if op = "sign" ∨ op = "verify" then "sig" else "enc"

example : JWK.construct [("kty", Value.str "oct"), ("k", Value.str "c2VjcmV0")]
    = Except.ok ⟨[("kty", Value.str "oct")], [("k", Value.str "c2VjcmV0")], []⟩ := by
  decide

example : JWK.construct [("kty", Value.str "oct")]
    = Except.error (Err.invalidJWKValue "No Key Values found") := by decide

example : JWK.construct [("kty", Value.str "oct"), ("k", Value.str "x"),
      ("zz", Value.str "a"), ("ww", Value.str "b")]
    = Except.error (Err.invalidJWKValue "Unknown key parameters") := by decide

example : JWK.construct [("kty", Value.str "oct"), ("k", Value.str "x"),
      ("zz", Value.str "a")]
    = Except.ok ⟨[("kty", Value.str "oct")], [("k", Value.str "x")],
        [("zz", Value.str "a")]⟩ := by decide

theorem lookup_cons_eq (v : Value) (l : List (String × Value)) (n : String) :
    List.lookup n ((n, v) :: l) = some v := by
  simp [List.lookup]

theorem lookup_cons_ne (v : Value) (l : List (String × Value)) {m n : String}
    (h : ¬ m = n) : List.lookup m ((n, v) :: l) = List.lookup m l := by
  simp [List.lookup, beq_eq_false_iff_ne.mpr h]

theorem lookup_mkSub (names : List String) (kwargs : List (String × Value)) (m : String) :
    List.lookup m (mkSub names kwargs) =
      if m ∈ names then List.lookup m kwargs else none := by
  induction names with
  | nil => simp [mkSub]
  | cons n ns ih =>
    by_cases hm : m = n
    · subst hm
      cases h : List.lookup m kwargs with
      | none => simp [mkSub, h, ih]
      | some v => simp [mkSub, h, lookup_cons_eq]
    · cases h : List.lookup n kwargs with
      | none => simp [mkSub, h, ih, hm]
      | some v => simp [mkSub, h, lookup_cons_ne _ _ hm, ih, hm]

theorem lookup_none_iff (l : List (String × Value)) (n : String) :
    List.lookup n l = none ↔ n ∉ l.map Prod.fst := by
  induction l with
  | nil => simp
  | cons p ps ih =>
    obtain ⟨k, v⟩ := p
    by_cases h : n = k
    · subst h; simp [lookup_cons_eq]
    · simp [lookup_cons_ne _ _ h, ih, h]

theorem lookup_append (l1 l2 : List (String × Value)) (n : String) :
    List.lookup n (l1 ++ l2) =
      match List.lookup n l1 with
      | some v => some v
      | none => List.lookup n l2 := by
  induction l1 with
  | nil => simp
  | cons p ps ih =>
    obtain ⟨k, v⟩ := p
    by_cases h : n = k
    · subst h; simp [lookup_cons_eq]
    · simp [lookup_cons_ne _ _ h, ih]

theorem lookup_filter_key (l : List (String × Value)) (f : String → Bool) (n : String) :
    List.lookup n (l.filter (fun p => f p.1)) =
      if f n then List.lookup n l else none := by
  induction l with
  | nil => simp
  | cons p ps ih =>
    obtain ⟨k, v⟩ := p
    by_cases h : n = k
    · subst h
      cases hf : f n with
      | true => simp [List.filter_cons, hf, lookup_cons_eq]
      | false => simp [List.filter_cons, hf, ih]
    · cases hf : f k with
      | true => simp [List.filter_cons, hf, lookup_cons_ne _ _ h, ih]
      | false => simp [List.filter_cons, hf, ih, lookup_cons_ne _ _ h]

theorem lookup_map_upd (d u : List (String × Value)) (n : String) :
    List.lookup n (d.map (fun p => match List.lookup p.1 u with
      | some v => (p.1, v)
      | none => p)) =
      match List.lookup n d with
      | none => none
      | some w =>
        match List.lookup n u with
        | some v => some v
        | none => some w := by
  induction d with
  | nil => simp
  | cons p ps ih =>
    obtain ⟨k, w⟩ := p
    by_cases h : n = k
    · subst h
      cases hu : List.lookup n u with
      | some v => simp [hu, lookup_cons_eq]
      | none => simp [hu, lookup_cons_eq]
    · cases hu : List.lookup k u with
      | some v => simp [hu, lookup_cons_ne _ _ h, ih]
      | none => simp [hu, lookup_cons_ne _ _ h, ih]

theorem lookup_updatePy (d u : List (String × Value)) (n : String) :
    List.lookup n (updatePy d u) =
      match List.lookup n u with
      | some v => some v
      | none => List.lookup n d := by
  rw [updatePy, lookup_append, lookup_map_upd,
    lookup_filter_key u (fun s => (List.lookup s d).isNone) n]
  cases hd : List.lookup n d with
  | some w => cases hu : List.lookup n u with
    | some v => simp [hd, hu]
    | none => simp [hd, hu]
  | none => cases hu : List.lookup n u with
    | some v => simp [hd, hu]
    | none => simp [hd, hu]

theorem unknownPass_sub (fuel i : Nat) (names : List String) :
    (∀ n ∈ (unknownPass fuel i names).1, n ∈ names) ∧
    (∀ n ∈ (unknownPass fuel i names).2, n ∈ names) := by
  induction fuel generalizing i names with
  | zero => simp [unknownPass]
  | succ f ih =>
    by_cases h : i < names.length
    · rw [unknownPass, dif_pos h]
      constructor
      · intro n hn
        rcases List.mem_cons.mp hn with rfl | hn
        · exact List.get_mem _ _ _
        · exact List.mem_of_mem_filter ((ih _ _).1 n hn)
      · intro n hn
        exact List.mem_of_mem_filter ((ih _ _).2 n hn)
    · rw [unknownPass, dif_neg h]
      simp

theorem unknownPass_cover (fuel i : Nat) (names : List String) :
    ∀ n ∈ names, n ∈ (unknownPass fuel i names).1 ∨ n ∈ (unknownPass fuel i names).2 := by
  induction fuel generalizing i names with
  | zero => intro n hn; right; simpa [unknownPass] using hn
  | succ f ih =>
    intro n hn
    by_cases h : i < names.length
    · rw [unknownPass, dif_pos h]
      by_cases he : n = names.get ⟨i, h⟩
      · left; exact he ▸ List.mem_cons_self _ _
      · have hn2 : n ∈ names.filter (fun m => m != names.get ⟨i, h⟩) :=
          List.mem_filter.mpr ⟨hn, bne_iff_ne.mpr he⟩
        rcases ih (i + 1) _ n hn2 with h1 | h2
        · left; exact List.mem_cons_of_mem _ h1
        · right; exact h2
    · rw [unknownPass, dif_neg h]
      right; exact hn

theorem bind_ok_eq {α β : Type} (x : α) (f : α → Except Err β) :
    (Except.ok x >>= f) = f x := rfl

theorem bind_err_eq {α β : Type} (e : Err) (f : α → Except Err β) :
    ((Except.error e : Except Err α) >>= f) = Except.error e := rfl

theorem construct_ok_inv (kwargs : List (String × Value)) (j : JWK)
    (h : JWK.construct kwargs = Except.ok j) :
    ∃ kty, readKty (mkSub jwkParamNames kwargs) = Except.ok kty ∧
      j.params = mkSub jwkParamNames kwargs ∧
      j.key = mkSub (jwkValueNames kty) kwargs ∧
      (unknownPass (leftoverNames kwargs kty).length 0 (leftoverNames kwargs kty)).2 = [] ∧
      j.unknown =
        mkSub (unknownPass (leftoverNames kwargs kty).length 0 (leftoverNames kwargs kty)).1
          kwargs := by
  simp only [JWK.construct] at h
  cases hk : readKty (mkSub jwkParamNames kwargs) with
  | error e => rw [hk, bind_err_eq] at h; exact absurd h (by simp)
  | ok kty =>
    rw [hk, bind_ok_eq] at h
    refine ⟨kty, rfl, ?_⟩
    split at h
    · exact absurd h (by simp)
    · split at h
      · exact absurd h (by simp)
      · cases hd : checkKeyOpsDup (mkSub jwkParamNames kwargs) with
        | error e => rw [hd, bind_err_eq] at h; exact absurd h (by simp)
        | ok u =>
          rw [hd, bind_ok_eq] at h
          cases hc : checkUseOpsCompat (mkSub jwkParamNames kwargs) with
          | error e => rw [hc, bind_err_eq] at h; exact absurd h (by simp)
          | ok u2 =>
            rw [hc, bind_ok_eq] at h
            cases h
            refine ⟨rfl, rfl, ?_, rfl⟩
            rename_i hlen _
            exact List.length_eq_zero.mp (by omega)

theorem readKty_ok (params : List (String × Value)) (kty : String)
    (h : readKty params = Except.ok kty) :
    List.lookup "kty" params = some (Value.str kty) ∧ kty ∈ jwkTypes := by
  unfold readKty at h
  split at h
  · exact absurd h (by simp)
  · exact absurd h (by simp)
  · rename_i s heq
    split at h
    · cases h; exact ⟨heq, by assumption⟩
    · exact absurd h (by simp)

theorem param_value_disjoint (kty n : String) (h1 : n ∈ jwkParamNames) :
    n ∉ jwkValueNames kty := by
  intro h2
  simp only [jwkParamNames, List.mem_cons, List.not_mem_nil, or_false] at h1
  rcases h1 with rfl | rfl | rfl | rfl | rfl | rfl | rfl | rfl | rfl <;>
    (revert h2; unfold jwkValueNames; split_ifs <;> decide)

theorem mem_leftoverNames (kwargs : List (String × Value)) (kty n : String) :
    n ∈ leftoverNames kwargs kty ↔
      n ∈ kwargs.map Prod.fst ∧ n ∉ jwkParamNames ∧ n ∉ jwkValueNames kty := by
  simp [leftoverNames, List.mem_filter, and_assoc]

theorem stored_iff (kwargs : List (String × Value)) (kty : String)
    (hrem : (unknownPass (leftoverNames kwargs kty).length 0 (leftoverNames kwargs kty)).2 = [])
    (n : String) :
    n ∈ (unknownPass (leftoverNames kwargs kty).length 0 (leftoverNames kwargs kty)).1 ↔
      n ∈ leftoverNames kwargs kty := by
  constructor
  · intro hn; exact (unknownPass_sub _ _ _).1 n hn
  · intro hn
    rcases unknownPass_cover _ _ _ n hn with h1 | h2
    · exact h1
    · rw [hrem] at h2; exact absurd h2 (List.not_mem_nil n)

/-- Claim C3: for every field mapping that passes construction-time
validation, the JSON object produced by `export` (decoded through the
external codec) is exactly the union of the originally supplied fields:
looking up any name in the export gives precisely its supplied value,
and names that were not supplied are absent. -/
theorem C3_export_roundtrip (kwargs : List (String × Value)) (j : JWK)
    (h : JWK.construct kwargs = Except.ok j) (n : String) :
    List.lookup n (JWK.exportObj j) = List.lookup n kwargs := by
  obtain ⟨kty, hk, hp, hkey, hrem, hunk⟩ := construct_ok_inv kwargs j h
  rw [JWK.exportObj, lookup_updatePy, lookup_updatePy]
  rw [hp, hkey, hunk, lookup_mkSub, lookup_mkSub, lookup_mkSub]
  by_cases hpn : n ∈ jwkParamNames
  · have hvn : n ∉ jwkValueNames kty := param_value_disjoint kty n hpn
    have hsn : n ∉ (unknownPass (leftoverNames kwargs kty).length 0
        (leftoverNames kwargs kty)).1 := by
      rw [stored_iff kwargs kty hrem n, mem_leftoverNames]; tauto
    rw [if_neg hsn, if_neg hvn, if_pos hpn]
  · by_cases hvn : n ∈ jwkValueNames kty
    · have hsn : n ∉ (unknownPass (leftoverNames kwargs kty).length 0
          (leftoverNames kwargs kty)).1 := by
        rw [stored_iff kwargs kty hrem n, mem_leftoverNames]; tauto
      rw [if_neg hsn, if_pos hvn]
      cases hw : List.lookup n kwargs <;> simp [hw, hpn]
    · by_cases hkn : n ∈ kwargs.map Prod.fst
      · have hsn : n ∈ (unknownPass (leftoverNames kwargs kty).length 0
            (leftoverNames kwargs kty)).1 := by
          rw [stored_iff kwargs kty hrem n, mem_leftoverNames]; tauto
        rw [if_pos hsn]
        cases hw : List.lookup n kwargs <;> simp [hw, hpn, hvn]
      · have hsn : n ∉ (unknownPass (leftoverNames kwargs kty).length 0
            (leftoverNames kwargs kty)).1 := by
          rw [stored_iff kwargs kty hrem n, mem_leftoverNames]; tauto
        have hw : List.lookup n kwargs = none := (lookup_none_iff kwargs n).mpr hkn
        rw [if_neg hsn, if_neg hvn, if_neg hpn, hw]

/-- Witness for C3 at a concrete accepted mapping: an `oct` key with a
`kid`, its secret, and one extension field, probed at the extension
name. -/
theorem C3_export_roundtrip_witness :
    List.lookup "ext"
        (JWK.exportObj ⟨[("kty", Value.str "oct"), ("kid", Value.str "k1")],
          [("k", Value.str "c2VjcmV0")], [("ext", Value.str "e1")]⟩) =
      List.lookup "ext"
        [("kty", Value.str "oct"), ("kid", Value.str "k1"),
         ("k", Value.str "c2VjcmV0"), ("ext", Value.str "e1")] :=
  C3_export_roundtrip
    [("kty", Value.str "oct"), ("kid", Value.str "k1"),
     ("k", Value.str "c2VjcmV0"), ("ext", Value.str "e1")]
    ⟨[("kty", Value.str "oct"), ("kid", Value.str "k1")],
     [("k", Value.str "c2VjcmV0")], [("ext", Value.str "e1")]⟩
    (by decide) "ext"

/-- Claim C5: for every field mapping accepted by construction, each
supplied name is present in exactly one of the three mappings `params`,
`key`, `unknown`, with its original value, and no unsupplied name
appears anywhere. -/
theorem C5_partition (kwargs : List (String × Value)) (j : JWK)
    (h : JWK.construct kwargs = Except.ok j) (n : String) :
    ((List.lookup n kwargs).isSome ↔
      ((List.lookup n j.params).isSome ∨ (List.lookup n j.key).isSome ∨
        (List.lookup n j.unknown).isSome)) ∧
    ¬((List.lookup n j.params).isSome ∧ (List.lookup n j.key).isSome) ∧
    ¬((List.lookup n j.params).isSome ∧ (List.lookup n j.unknown).isSome) ∧
    ¬((List.lookup n j.key).isSome ∧ (List.lookup n j.unknown).isSome) ∧
    ((List.lookup n j.params).isSome → List.lookup n j.params = List.lookup n kwargs) ∧
    ((List.lookup n j.key).isSome → List.lookup n j.key = List.lookup n kwargs) ∧
    ((List.lookup n j.unknown).isSome → List.lookup n j.unknown = List.lookup n kwargs) := by
  obtain ⟨kty, hk, hp, hkey, hrem, hunk⟩ := construct_ok_inv kwargs j h
  rw [hp, hkey, hunk, lookup_mkSub, lookup_mkSub, lookup_mkSub]
  by_cases hpn : n ∈ jwkParamNames
  · have hvn : n ∉ jwkValueNames kty := param_value_disjoint kty n hpn
    have hsn : n ∉ (unknownPass (leftoverNames kwargs kty).length 0
        (leftoverNames kwargs kty)).1 := by
      rw [stored_iff kwargs kty hrem n, mem_leftoverNames]; tauto
    simp [hpn, hvn, hsn]
  · by_cases hvn : n ∈ jwkValueNames kty
    · have hsn : n ∉ (unknownPass (leftoverNames kwargs kty).length 0
          (leftoverNames kwargs kty)).1 := by
        rw [stored_iff kwargs kty hrem n, mem_leftoverNames]; tauto
      simp [hpn, hvn, hsn]
    · by_cases hkn : n ∈ kwargs.map Prod.fst
      · have hsn : n ∈ (unknownPass (leftoverNames kwargs kty).length 0
            (leftoverNames kwargs kty)).1 := by
          rw [stored_iff kwargs kty hrem n, mem_leftoverNames]; tauto
        simp [hpn, hvn, hsn]
      · have hsn : n ∉ (unknownPass (leftoverNames kwargs kty).length 0
            (leftoverNames kwargs kty)).1 := by
          rw [stored_iff kwargs kty hrem n, mem_leftoverNames]; tauto
        have hw : List.lookup n kwargs = none := (lookup_none_iff kwargs n).mpr hkn
        simp [hpn, hvn, hsn, hw]

/-- Witness for C5 at a concrete accepted mapping (an RSA public key
with an extension field), probed at the material name `n`. -/
theorem C5_partition_witness :
    ((List.lookup "n"
        [("kty", Value.str "RSA"), ("n", Value.str "AQI"), ("e", Value.str "AQ"),
         ("other", Value.str "zz")]).isSome ↔
      ((List.lookup "n" [("kty", Value.str "RSA")]).isSome ∨
        (List.lookup "n" [("n", Value.str "AQI"), ("e", Value.str "AQ")]).isSome ∨
        (List.lookup "n" [("other", Value.str "zz")]).isSome)) ∧
    ¬((List.lookup "n" [("kty", Value.str "RSA")]).isSome ∧
      (List.lookup "n" [("n", Value.str "AQI"), ("e", Value.str "AQ")]).isSome) ∧
    ¬((List.lookup "n" [("kty", Value.str "RSA")]).isSome ∧
      (List.lookup "n" [("other", Value.str "zz")]).isSome) ∧
    ¬((List.lookup "n" [("n", Value.str "AQI"), ("e", Value.str "AQ")]).isSome ∧
      (List.lookup "n" [("other", Value.str "zz")]).isSome) ∧
    ((List.lookup "n" [("kty", Value.str "RSA")]).isSome →
      List.lookup "n" [("kty", Value.str "RSA")] =
        List.lookup "n"
          [("kty", Value.str "RSA"), ("n", Value.str "AQI"), ("e", Value.str "AQ"),
           ("other", Value.str "zz")]) ∧
    ((List.lookup "n" [("n", Value.str "AQI"), ("e", Value.str "AQ")]).isSome →
      List.lookup "n" [("n", Value.str "AQI"), ("e", Value.str "AQ")] =
        List.lookup "n"
          [("kty", Value.str "RSA"), ("n", Value.str "AQI"), ("e", Value.str "AQ"),
           ("other", Value.str "zz")]) ∧
    ((List.lookup "n" [("other", Value.str "zz")]).isSome →
      List.lookup "n" [("other", Value.str "zz")] =
        List.lookup "n"
          [("kty", Value.str "RSA"), ("n", Value.str "AQI"), ("e", Value.str "AQ"),
           ("other", Value.str "zz")]) :=
  C5_partition
    [("kty", Value.str "RSA"), ("n", Value.str "AQI"), ("e", Value.str "AQ"),
     ("other", Value.str "zz")]
    ⟨[("kty", Value.str "RSA")], [("n", Value.str "AQI"), ("e", Value.str "AQ")],
     [("other", Value.str "zz")]⟩
    (by decide) "n"

/-- Counterexample to claim C4 as stated: `use` declared as the empty
string differs from the requested usage `sig`, yet the constraint check
accepts, because the source tests Python truthiness (`if use`) rather
than presence. -/
theorem C4_counterexample :
    JWK.check_constraints [("use", Value.str "")] "sig" "sign" = Except.ok () ∧
    List.lookup "use" [("use", Value.str "")] = some (Value.str "") ∧
    Value.str "" ≠ Value.str "sig" := by decide

/-- Claim C4 as amended: the constraint check fails with
`InvalidJWKUsage` iff `use` is declared with a truthy (non-empty) value
differing from the requested usage; it fails with
`InvalidJWKOperation` iff the `use` test passes and `key_ops` is
declared with a truthy value whose normalized sequence (a lone value
becoming a one-element sequence) misses the requested operation; it
accepts iff neither blocks, so an absent (or empty) field imposes no
restriction. -/
theorem C4_check_constraints_spec (params : List (String × Value)) (usage operation : String) :
    (JWK.check_constraints params usage operation = Except.error Err.invalidJWKUsage ↔
      useBlocked params usage = true) ∧
    (JWK.check_constraints params usage operation = Except.error Err.invalidJWKOperation ↔
      (useBlocked params usage = false ∧ opsBlocked params operation = true)) ∧
    (JWK.check_constraints params usage operation = Except.ok () ↔
      (useBlocked params usage = false ∧ opsBlocked params operation = false)) := by
  have hcase : useBlocked params usage = true ∨
      (useBlocked params usage = false ∧
        ¬(∃ u, List.lookup "use" params = some u ∧ pyTruthy u = true ∧
          u ≠ Value.str usage)) := by
    cases hu : List.lookup "use" params with
    | none => exact Or.inr ⟨by simp [useBlocked, hu], by simp [hu]⟩
    | some u =>
      by_cases h1 : pyTruthy u = true ∧ u ≠ Value.str usage
      · exact Or.inl (by simp [useBlocked, hu, h1.1, h1.2])
      · refine Or.inr ⟨?_, ?_⟩
        · simp only [useBlocked, hu]
          cases hpu : pyTruthy u with
          | false => simp
          | true =>
            have h2 : u = Value.str usage := by
              by_contra hne
              exact h1 ⟨hpu, hne⟩
            simp [h2]
        · rintro ⟨u2, hu2, hp2, hne2⟩
          injection hu2 with hh
          subst hh
          exact h1 ⟨hp2, hne2⟩
  rcases hcase with hub | ⟨hub, hnu⟩
  · have hcc : JWK.check_constraints params usage operation =
        Except.error Err.invalidJWKUsage := by
      rcases hu : List.lookup "use" params with _ | u
      · simp [useBlocked, hu] at hub
      · have h1 : pyTruthy u = true ∧ u ≠ Value.str usage := by
          simp only [useBlocked, hu, Bool.and_eq_true, decide_eq_true_eq] at hub
          exact hub
        simp [JWK.check_constraints, hu, h1, bind_err_eq]
    refine ⟨by simp [hcc, hub], by simp [hcc, hub], by simp [hcc, hub]⟩
  · have hu1 : (match List.lookup "use" params with
        | some u =>
          if pyTruthy u ∧ u ≠ Value.str usage then Except.error Err.invalidJWKUsage
          else Except.ok ()
        | none => Except.ok ()) = Except.ok () := by
      cases hu : List.lookup "use" params with
      | none => rfl
      | some u =>
        have : ¬(pyTruthy u = true ∧ u ≠ Value.str usage) := by
          rintro ⟨hp, hne⟩
          exact hnu ⟨u, hu, hp, hne⟩
        simp [this]
    have hcc : JWK.check_constraints params usage operation =
        (match List.lookup "key_ops" params with
          | some v =>
            if pyTruthy v then
              if operation ∈ normOps v then Except.ok ()
              else Except.error Err.invalidJWKOperation
            else Except.ok ()
          | none => Except.ok ()) := by
      rw [JWK.check_constraints, hu1, bind_ok_eq]
    cases ho : List.lookup "key_ops" params with
    | none => simp [hcc, ho, hub, opsBlocked]
    | some v =>
      cases ht : pyTruthy v with
      | false => simp [hcc, ho, ht, hub, opsBlocked]
      | true =>
        by_cases hm : operation ∈ normOps v
        · simp [hcc, ho, ht, hm, hub, opsBlocked]
        · simp [hcc, ho, ht, hm, hub, opsBlocked]

/-- Claim C6: constructing with `kty` absent, or with a string `kty`
value outside the registered set, fails with the `InvalidJWKType` error
kind. -/
theorem C6_bad_kty (kwargs : List (String × Value)) :
    (List.lookup "kty" kwargs = none →
      JWK.construct kwargs = Except.error Err.invalidJWKType) ∧
    (∀ s, List.lookup "kty" kwargs = some (Value.str s) → s ∉ jwkTypes →
      JWK.construct kwargs = Except.error Err.invalidJWKType) := by
  have hmem : "kty" ∈ jwkParamNames := by decide
  constructor
  · intro h0
    have hr : readKty (mkSub jwkParamNames kwargs) = Except.error Err.invalidJWKType := by
      unfold readKty
      rw [lookup_mkSub, if_pos hmem, h0]
    rw [JWK.construct, hr, bind_err_eq]
  · intro s hs hn
    have hr : readKty (mkSub jwkParamNames kwargs) = Except.error Err.invalidJWKType := by
      unfold readKty
      rw [lookup_mkSub, if_pos hmem, hs]
      simp [hn]
    rw [JWK.construct, hr, bind_err_eq]

/-- Witness for C6: a concrete mapping whose `kty` is the unregistered
string `foo`. -/
theorem C6_bad_kty_witness :
    JWK.construct [("kty", Value.str "foo"), ("k", Value.str "x")] =
      Except.error Err.invalidJWKType :=
  (C6_bad_kty [("kty", Value.str "foo"), ("k", Value.str "x")]).2 "foo"
    (by decide) (by decide)

/-- Claim C7 (code bug, evaluated): with one extension field the
constructor accepts and stores it, as the spec and the own source
comment (unknown parameters "are allowed ... stored out of the way")
describe; adding a second extension field makes the same constructor
raise `InvalidJWKValue` "Unknown key parameters", because the unknown
loop removes elements from the list it is iterating and so skips every
other name.  The third conjunct is the zero-material half of the claim,
which the code honours. -/
theorem C7_unknowns_bug :
    JWK.construct [("kty", Value.str "oct"), ("k", Value.str "x"), ("aa", Value.str "1")] =
      Except.ok ⟨[("kty", Value.str "oct")], [("k", Value.str "x")],
        [("aa", Value.str "1")]⟩ ∧
    JWK.construct [("kty", Value.str "oct"), ("k", Value.str "x"),
        ("aa", Value.str "1"), ("bb", Value.str "2")] =
      Except.error (Err.invalidJWKValue "Unknown key parameters") ∧
    JWK.construct [("kty", Value.str "oct")] =
      Except.error (Err.invalidJWKValue "No Key Values found") := by
  refine ⟨by decide, by decide, by decide⟩

theorem hexVal_hexDigitChar (d : Nat) (h : d < 16) :
    hexVal (hexDigitChar d) = some d := by
  interval_cases d <;> decide

theorem foldl_hexlify (bs : List Nat) (a : Nat) (h : ∀ b ∈ bs, b < 256) :
    List.foldl (fun acc c =>
        match acc, hexVal c with
        | some a, some d => some (a * 16 + d)
        | _, _ => none) (some a) (hexlify bs) =
      some (bs.foldl (fun x b => x * 256 + b) a) := by
  induction bs generalizing a with
  | nil => simp [hexlify]
  | cons b tl ih =>
    have hb : b < 256 := h b (List.mem_cons_self _ _)
    have hdiv : b / 16 < 16 := by omega
    have hmod : b % 16 < 16 := by omega
    have step1 : hexVal (hexDigitChar (b / 16)) = some (b / 16) :=
      hexVal_hexDigitChar _ hdiv
    have step2 : hexVal (hexDigitChar (b % 16)) = some (b % 16) :=
      hexVal_hexDigitChar _ hmod
    have harith : (a * 16 + b / 16) * 16 + b % 16 = a * 256 + b := by omega
    simp only [hexlify, List.flatMap_cons, List.cons_append, List.nil_append,
      List.foldl_cons, step1, step2]
    rw [harith]
    have htl : ∀ x ∈ tl, x < 256 := fun x hx => h x (List.mem_cons_of_mem _ hx)
    simpa [hexlify] using ih (a * 256 + b) htl

theorem parseHex_hexlify (bs : List Nat) (h1 : bs ≠ []) (h2 : ∀ b ∈ bs, b < 256) :
    parseHexNat (hexlify bs) = some (beVal bs) := by
  cases bs with
  | nil => exact absurd rfl h1
  | cons b tl =>
    rw [parseHexNat, if_neg (by simp [hexlify])]
    exact foldl_hexlify (b :: tl) 0 h2

theorem b64CharVal_lt (c : Char) (v : Nat) (h : b64CharVal c = some v) : v < 64 := by
  unfold b64CharVal at h
  split_ifs at h with h1 h2 h3 h4 h5
  · injection h with hh; omega
  · injection h with hh; omega
  · injection h with hh; omega
  · injection h with hh; omega
  · injection h with hh; omega

theorem b64urlDecodeL_lt (cs : List Char) :
    ∀ bs, b64urlDecodeL cs = some bs → ∀ b ∈ bs, b < 256 := by
  induction cs using b64urlDecodeL.induct with
  | case1 =>
    intro bs h b hb
    simp only [b64urlDecodeL] at h
    cases h
    exact absurd hb (List.not_mem_nil b)
  | case2 c =>
    intro bs h
    simp [b64urlDecodeL] at h
  | case3 c1 c2 v1 v2 h2 h1 =>
    intro bs h b hb
    simp only [b64urlDecodeL, h1, h2] at h
    cases h
    have hv1 := b64CharVal_lt _ _ h1
    have hv2 := b64CharVal_lt _ _ h2
    rcases List.mem_singleton.mp hb with rfl
    omega
  | case4 c1 c2 hnone =>
    intro bs h
    simp only [b64urlDecodeL] at h
    cases hc1 : b64CharVal c1 with
    | none => simp at h
    | some v1 =>
      cases hc2 : b64CharVal c2 with
      | none => simp at h
      | some v2 => exact (hnone v1 v2 hc1 hc2).elim
  | case5 c1 c2 c3 v1 v2 v3 h3 h2 h1 =>
    intro bs h b hb
    simp only [b64urlDecodeL, h1, h2, h3] at h
    cases h
    have hv1 := b64CharVal_lt _ _ h1
    have hv2 := b64CharVal_lt _ _ h2
    have hv3 := b64CharVal_lt _ _ h3
    rcases List.mem_cons.mp hb with rfl | hb2
    · omega
    · rcases List.mem_singleton.mp hb2 with rfl
      omega
  | case6 c1 c2 c3 hnone =>
    intro bs h
    simp only [b64urlDecodeL] at h
    cases hc1 : b64CharVal c1 with
    | none => simp at h
    | some v1 =>
      cases hc2 : b64CharVal c2 with
      | none => simp at h
      | some v2 =>
        cases hc3 : b64CharVal c3 with
        | none => simp at h
        | some v3 => exact (hnone v1 v2 v3 hc1 hc2 hc3).elim
  | case7 c1 c2 c3 c4 rest v1 v2 v3 v4 tl hrest h4 h3 h2 h1 ih =>
    intro bs h b hb
    simp only [b64urlDecodeL, h1, h2, h3, h4, hrest] at h
    cases h
    have hv1 := b64CharVal_lt _ _ h1
    have hv2 := b64CharVal_lt _ _ h2
    have hv3 := b64CharVal_lt _ _ h3
    have hv4 := b64CharVal_lt _ _ h4
    rcases List.mem_cons.mp hb with rfl | hb2
    · omega
    · rcases List.mem_cons.mp hb2 with rfl | hb3
      · omega
      · rcases List.mem_cons.mp hb3 with rfl | hb4
        · omega
        · exact ih tl hrest b hb4
  | case8 c1 c2 c3 c4 rest hnone ih =>
    intro bs h
    simp only [b64urlDecodeL] at h
    cases hc1 : b64CharVal c1 with
    | none => simp at h
    | some v1 =>
      cases hc2 : b64CharVal c2 with
      | none => simp at h
      | some v2 =>
        cases hc3 : b64CharVal c3 with
        | none => simp at h
        | some v3 =>
          cases hc4 : b64CharVal c4 with
          | none => simp at h
          | some v4 =>
            cases hrest : b64urlDecodeL rest with
            | none => simp at h
            | some tl => exact (hnone v1 v2 v3 v4 tl hc1 hc2 hc3 hc4 hrest).elim

theorem beVal_append_singleton (bs : List Nat) (b : Nat) :
    beVal (bs ++ [b]) = beVal bs * 256 + b := by
  simp [beVal, List.foldl_append]

theorem beVal_eq_sum (bs : List Nat) :
    beVal bs = ∑ i ∈ Finset.range bs.length, bs.getD i 0 * 256 ^ (bs.length - 1 - i) := by
  induction bs using List.reverseRecOn with
  | nil => simp [beVal]
  | append_singleton bs b ih =>
    have hlen : (bs ++ [b]).length = bs.length + 1 := by simp
    rw [hlen, Finset.sum_range_succ]
    have hlast : (bs ++ [b]).getD bs.length 0 = b := by
      simp [List.getD_append_right]
    have hinit : ∀ i ∈ Finset.range bs.length,
        (bs ++ [b]).getD i 0 * 256 ^ (bs.length + 1 - 1 - i) =
          256 * (bs.getD i 0 * 256 ^ (bs.length - 1 - i)) := by
      intro i hi
      have hi2 : i < bs.length := Finset.mem_range.mp hi
      have hg : (bs ++ [b]).getD i 0 = bs.getD i 0 := List.getD_append _ _ _ _ hi2
      have hexp : bs.length + 1 - 1 - i = (bs.length - 1 - i) + 1 := by omega
      rw [hg, hexp, pow_succ]
      ring
    rw [Finset.sum_congr rfl hinit, ← Finset.mul_sum, ← ih, hlast,
      beVal_append_singleton]
    simp
    ring

theorem decode_int_ok (s : String) (bs : List Nat)
    (h : b64urlDecode s = some bs) (hne : bs ≠ []) :
    JWK.decode_int (Value.str s) = Except.ok (beVal bs) := by
  have hlt : ∀ b ∈ bs, b < 256 := b64urlDecodeL_lt s.data bs h
  rw [JWK.decode_int, h]
  simp only [parseHex_hexlify bs hne hlt]

/-- Counterexample to claim C9 as stated: the empty field value is a
valid base64url encoding of the empty octet string, whose big-endian
value is 0, but `_decode_int` raises `ValueError` (`int(empty, 16)`)
instead of returning 0. -/
theorem C9_counterexample :
    b64urlDecode "" = some [] ∧
    JWK.decode_int (Value.str "") = Except.error Err.valueError ∧
    JWK.decode_int (Value.str "") ≠ Except.ok (beVal []) := by decide

/-- Claim C9 as amended: for every field value whose base64url
decoding yields a non-empty octet string, `_decode_int` returns the
arbitrary-precision integer whose big-endian base-256 representation is
that octet string, i.e. the sum over octets of `byte i * 256 ^ (len - 1 - i)`;
the empty octet string instead raises `ValueError`. -/
theorem C9_decode_int_be (s : String) (bs : List Nat)
    (h : b64urlDecode s = some bs) (hne : bs ≠ []) :
    JWK.decode_int (Value.str s) = Except.ok (beVal bs) ∧
    beVal bs = ∑ i ∈ Finset.range bs.length, bs.getD i 0 * 256 ^ (bs.length - 1 - i) :=
  ⟨decode_int_ok s bs h hne, beVal_eq_sum bs⟩

/-- Witness for C9 at the concrete value `AQI`, which decodes to the
octets `[1, 2]` with big-endian value 258. -/
theorem C9_decode_int_be_witness :
    (JWK.decode_int (Value.str "AQI") = Except.ok (beVal [1, 2]) ∧
      beVal [1, 2] = ∑ i ∈ Finset.range (List.length [1, 2]),
        List.getD [1, 2] i 0 * 256 ^ (List.length [1, 2] - 1 - i)) ∧
    beVal [1, 2] = 258 :=
  ⟨C9_decode_int_be "AQI" [1, 2] (by decide) (by decide), by decide⟩

/-- Counterexample to claim C1 as stated: a constructed EC key whose
`crv` is the unregistered string `P-999` fails material resolution
(`get_op_key(verify)`) with `InvalidJWKValue` ("Unknown Elliptic
Curve Type"), which is not the `InvalidJWKType` error kind. -/
theorem C1_counterexample :
    JWK.construct [("kty", Value.str "EC"), ("crv", Value.str "P-999"),
        ("x", Value.str "AQ"), ("y", Value.str "AQ")] =
      Except.ok ⟨[("kty", Value.str "EC")],
        [("crv", Value.str "P-999"), ("x", Value.str "AQ"), ("y", Value.str "AQ")],
        []⟩ ∧
    JWK.get_op_key ⟨[("kty", Value.str "EC")],
        [("crv", Value.str "P-999"), ("x", Value.str "AQ"), ("y", Value.str "AQ")],
        []⟩ (some "verify") none =
      Except.error (Err.invalidJWKValue "Unknown Elliptic Curve Type") ∧
    Err.invalidJWKValue "Unknown Elliptic Curve Type" ≠ Err.invalidJWKType := by
  decide

/-- Claim C1 as amended: for every EC key whose `crv` material field is
a string outside the registered curves, resolving the curve with no
hint fails with the `InvalidJWKValue` error kind ("Unknown Elliptic
Curve Type"), not `InvalidJWKType`. -/
theorem C1_get_curve_unregistered (j : JWK) (s : String)
    (hk : List.lookup "kty" j.params = some (Value.str "EC"))
    (hc : List.lookup "crv" j.key = some (Value.str s))
    (hs : s ∉ ["P-256", "P-384", "P-521"]) :
    j.get_curve none = Except.error (Err.invalidJWKValue "Unknown Elliptic Curve Type") := by
  have hs3 : s ≠ "P-256" ∧ s ≠ "P-384" ∧ s ≠ "P-521" := by simpa using hs
  simp [JWK.get_curve, dictGet, hk, hc, bind_ok_eq, hs3.1, hs3.2.1, hs3.2.2]

/-- Witness for C1 (amended) at a concrete EC key with `crv = P-999`. -/
theorem C1_get_curve_unregistered_witness :
    JWK.get_curve ⟨[("kty", Value.str "EC")], [("crv", Value.str "P-999")], []⟩ none =
      Except.error (Err.invalidJWKValue "Unknown Elliptic Curve Type") :=
  C1_get_curve_unregistered ⟨[("kty", Value.str "EC")], [("crv", Value.str "P-999")], []⟩
    "P-999" (by decide) (by decide) (by decide)

/-- Counterexample to claim C2 as stated: a constructed RSA key holding
only `n` and `e` fails `get_op_key(sign)` with the Python `KeyError`
(the direct `k[p]` access in `_rsa_pri`), which is not the
`InvalidJWKValue` error kind. -/
theorem C2_counterexample :
    JWK.construct [("kty", Value.str "RSA"), ("n", Value.str "AQI"),
        ("e", Value.str "AQ")] =
      Except.ok ⟨[("kty", Value.str "RSA")],
        [("n", Value.str "AQI"), ("e", Value.str "AQ")], []⟩ ∧
    JWK.get_op_key ⟨[("kty", Value.str "RSA")],
        [("n", Value.str "AQI"), ("e", Value.str "AQ")], []⟩ (some "sign") none =
      Except.error (Err.keyError "p") ∧
    (∀ msg, Err.keyError "p" ≠ Err.invalidJWKValue msg) := by
  refine ⟨by decide, by decide, ?_⟩
  intro msg
  simp

/-- Claim C2 as amended: for every RSA key whose material is exactly
`{n, e}` holding valid non-empty base64url values, and whose metadata
does not block `sig` requests, `get_op_key(verify)` succeeds with the
assembled public-number handle, while `get_op_key(sign)` fails with a
missing-field lookup error (`KeyError` on `p`), not `InvalidJWKValue`. -/
theorem C2_rsa_pub_only (j : JWK) (ns es : String) (nbs ebs : List Nat)
    (arg : Option String)
    (hk : List.lookup "kty" j.params = some (Value.str "RSA"))
    (hkey : j.key = [("n", Value.str ns), ("e", Value.str es)])
    (hn : b64urlDecode ns = some nbs) (hnne : nbs ≠ [])
    (he : b64urlDecode es = some ebs) (hene : ebs ≠ [])
    (hcv : JWK.check_constraints j.params "sig" "verify" = Except.ok ())
    (hcs : JWK.check_constraints j.params "sig" "sign" = Except.ok ()) :
    j.get_op_key (some "verify") arg =
      Except.ok (KeyHandle.rsaPubKey ⟨beVal ebs, beVal nbs⟩) ∧
    j.get_op_key (some "sign") arg = Except.error (Err.keyError "p") := by
  have hde := decode_int_ok es ebs he hene
  have hdn := decode_int_ok ns nbs hn hnne
  constructor
  · simp [JWK.get_op_key, hcv, bind_ok_eq, JWK.get_public_key, dictGet, hk,
      JWK.rsa_pub, hkey, List.lookup, hde, hdn]
  · simp [JWK.get_op_key, hcs, bind_ok_eq, bind_err_eq, JWK.get_private_key,
      dictGet, hk, JWK.rsa_pri, hkey, List.lookup]

/-- Witness for C2 (amended) at a concrete RSA public key with
`n = AQI` (octets `[1, 2]`) and `e = AQ` (octet `[1]`). -/
theorem C2_rsa_pub_only_witness :
    JWK.get_op_key ⟨[("kty", Value.str "RSA")],
        [("n", Value.str "AQI"), ("e", Value.str "AQ")], []⟩ (some "verify") none =
      Except.ok (KeyHandle.rsaPubKey ⟨beVal [1], beVal [1, 2]⟩) ∧
    JWK.get_op_key ⟨[("kty", Value.str "RSA")],
        [("n", Value.str "AQI"), ("e", Value.str "AQ")], []⟩ (some "sign") none =
      Except.error (Err.keyError "p") :=
  C2_rsa_pub_only ⟨[("kty", Value.str "RSA")],
      [("n", Value.str "AQI"), ("e", Value.str "AQ")], []⟩
    "AQI" "AQ" [1, 2] [1] none (by decide) rfl (by decide) (by decide) (by decide)
    (by decide) (by decide) (by decide)

/-- Claim C8: for every `oct` key (the `kty` parameter is `oct` and the
raw secret `k` is present) and every implemented operation whose
constraint check passes, `get_op_key` returns the raw `k` value
unchanged; in particular public-material requests such as `encrypt` and
private-material requests such as `decrypt` return the same value. -/
theorem C8_oct_raw_secret (j : JWK) (v : Value) (arg : Option String) (op : String)
    (hk : List.lookup "kty" j.params = some (Value.str "oct"))
    (hv : List.lookup "k" j.key = some v)
    (hop : op ∈ ["sign", "verify", "encrypt", "decrypt", "wrapKey", "unwrapKey"])
    (hc : JWK.check_constraints j.params (opUsage op) op = Except.ok ()) :
    j.get_op_key (some op) arg = Except.ok (KeyHandle.octKey v) := by
  simp only [List.mem_cons, List.not_mem_nil, or_false] at hop
  rcases hop with rfl | rfl | rfl | rfl | rfl | rfl <;>
    (simp [opUsage] at hc
     simp [JWK.get_op_key, hc, bind_ok_eq, JWK.get_public_key,
       JWK.get_private_key, dictGet, hk, hv])

/-- Witness for C8 at a concrete `oct` key, requested for `encrypt` and
for `decrypt`: both return the raw secret. -/
theorem C8_oct_raw_secret_witness :
    JWK.get_op_key ⟨[("kty", Value.str "oct")], [("k", Value.str "c2VjcmV0")], []⟩
        (some "encrypt") none = Except.ok (KeyHandle.octKey (Value.str "c2VjcmV0")) ∧
    JWK.get_op_key ⟨[("kty", Value.str "oct")], [("k", Value.str "c2VjcmV0")], []⟩
        (some "decrypt") none = Except.ok (KeyHandle.octKey (Value.str "c2VjcmV0")) :=
  ⟨C8_oct_raw_secret ⟨[("kty", Value.str "oct")], [("k", Value.str "c2VjcmV0")], []⟩
      (Value.str "c2VjcmV0") none "encrypt" (by decide) (by decide) (by decide)
      (by decide),
   C8_oct_raw_secret ⟨[("kty", Value.str "oct")], [("k", Value.str "c2VjcmV0")], []⟩
      (Value.str "c2VjcmV0") none "decrypt" (by decide) (by decide) (by decide)
      (by decide)⟩

/-- Claim C10: `get_op_key` with no operation returns the raw `k`
secret of an `oct` key without consulting the constraint checker — the
result does not depend on `use` or `key_ops` at all — while on every
key of another declared type the same call raises
`InvalidJWKOperation`. -/
theorem C10_no_operation (j : JWK) (arg : Option String) :
    (∀ v, List.lookup "kty" j.params = some (Value.str "oct") →
      List.lookup "k" j.key = some v →
      j.get_op_key none arg = Except.ok (KeyHandle.octKey v)) ∧
    (∀ t, List.lookup "kty" j.params = some (Value.str t) → t ≠ "oct" →
      j.get_op_key none arg = Except.error Err.invalidJWKOperation) := by
  constructor
  · intro v hk hv
    simp [JWK.get_op_key, dictGet, hk, hv, bind_ok_eq]
  · intro t hk ht
    simp [JWK.get_op_key, dictGet, hk, bind_ok_eq, ht]

/-- Witness for C10 at an `oct` key whose `use` and `key_ops` would
reject every named operation, and at an RSA key. -/
theorem C10_no_operation_witness :
    JWK.get_op_key ⟨[("kty", Value.str "oct"), ("use", Value.str "enc"),
        ("key_ops", Value.list ["wrapKey"])], [("k", Value.str "s3")], []⟩ none none =
      Except.ok (KeyHandle.octKey (Value.str "s3")) ∧
    JWK.get_op_key ⟨[("kty", Value.str "RSA")],
        [("n", Value.str "AQI"), ("e", Value.str "AQ")], []⟩ none none =
      Except.error Err.invalidJWKOperation :=
  ⟨(C10_no_operation ⟨[("kty", Value.str "oct"), ("use", Value.str "enc"),
        ("key_ops", Value.list ["wrapKey"])], [("k", Value.str "s3")], []⟩ none).1
      (Value.str "s3") (by decide) (by decide),
   (C10_no_operation ⟨[("kty", Value.str "RSA")],
        [("n", Value.str "AQI"), ("e", Value.str "AQ")], []⟩ none).2
      "RSA" (by decide) (by decide)⟩

/-- Witness for C4 (amended) at a concrete key declaring only
`key_ops = [verify]`, requested for `sign`: blocked by the operation
clause. -/
theorem C4_check_constraints_spec_witness :
    JWK.check_constraints [("key_ops", Value.list ["verify"])] "sig" "sign" =
        Except.error Err.invalidJWKOperation ↔
      (useBlocked [("key_ops", Value.list ["verify"])] "sig" = false ∧
        opsBlocked [("key_ops", Value.list ["verify"])] "sign" = true) :=
  (C4_check_constraints_spec [("key_ops", Value.list ["verify"])] "sig" "sign").2.1
